import Mathlib

/-!
# PrismFlow `NaturalAsymmetryOptimizer`

A shallow embedding of `src/natural_asymmetry/resource_optimizer.cpp` and the
properties of its three-tier resource budgets.

* Machine integers are `Nat`/`Int`; `size_t`, `SIZE_T` and `ULONGLONG` are 64 bits wide
  (x64 Windows target) and unsigned arithmetic wraps modulo `2 ^ 64`.
* `double` values are modelled exactly as dyadic rationals, and `double` multiplication as
  the correctly rounded (round-to-nearest, ties-to-even, 53 significant bits) product.
* Operating-system calls are recorded in a trace of `Event`s, in program order; results
  of operating-system queries are inputs of the functions.
-/

namespace PrismFlow

/-! ## Machine arithmetic -/

/-- Value of an unsigned 64-bit result (`size_t`, `SIZE_T`, `ULONGLONG`). -/
def wrap64 (n : Nat) : Nat := n % 2 ^ 64

/-- Value of a 32-bit `int` result (two's complement). -/
def wrapInt32 (n : Int) : Int := (n + 2 ^ 31) % 2 ^ 32 - 2 ^ 31

/-! ## binary64 arithmetic on non-negative finite values -/

/-- A non-negative finite `double`, the dyadic rational `mant / 2 ^ scale`.  All values
that occur (between `2 ^ (-2)` and `2 ^ 98`) lie far inside the exponent range of
binary64, so only the 53-bit significand limits precision. -/
structure Double where
  mant : Nat
  scale : Nat
deriving DecidableEq, Repr

/-- The real (rational) number a `Double` stands for. -/
def Double.toRat (d : Double) : ℚ := (d.mant : ℚ) / 2 ^ d.scale

/-- Round a natural number to 53 significant bits, to nearest, ties to even: with `s` the
number of bits beyond the 53rd, the low `s` bits `r` are dropped and the kept part `q` is
incremented when `r` is above half, or exactly half and `q` is odd. -/
def roundSig53 (N : Nat) : Nat :=
  let s := (Nat.log2 N + 1) - 53
  let q := N / 2 ^ s
  let r := N % 2 ^ s
  if 2 * r < 2 ^ s then q * 2 ^ s
  else if 2 ^ s < 2 * r then (q + 1) * 2 ^ s
  else if q % 2 = 0 then q * 2 ^ s
  else (q + 1) * 2 ^ s

/-- Conversion `size_t → double` (rounds when the integer needs more than 53 bits). -/
def Double.ofSizeT (n : Nat) : Double := ⟨roundSig53 n, 0⟩

/-- The `double` product: the exact product of the two dyadic values, correctly rounded. -/
def Double.mul (a b : Double) : Double :=
  ⟨roundSig53 (a.mant * b.mant), a.scale + b.scale⟩

/-- Conversion `double → size_t`: truncation toward zero (defined in C++ when the
truncated value is below `2 ^ 64`, which is the case wherever it is used). -/
def Double.toSizeT (d : Double) : Nat := d.mant / 2 ^ d.scale

/-! ## The class `NaturalAsymmetryOptimizer` -/

/-- The literal `0.30`: the binary64 value `0x3FD3333333333333`. -/
def EMERGENCE_RATIO : Double := ⟨5404319552844595, 54⟩

/-- The literal `0.20`: the binary64 value `0x3FC999999999999A`. -/
def OPTIMIZE_RATIO : Double := ⟨7205759403792794, 55⟩

/-- The literal `0.50`: the binary64 value `0x3FE0000000000000`. -/
def SUPPORT_RATIO : Double := ⟨4503599627370496, 53⟩

/-- The struct `ResourceLimits`: `size_t max_memory_mb; int max_cpu_percent; int max_threads`. -/
structure ResourceLimits where
  max_memory_mb : Nat
  max_cpu_percent : Int
  max_threads : Int
deriving DecidableEq, Repr

/-- The mutable fields of a `NaturalAsymmetryOptimizer` object. -/
structure NaturalAsymmetryOptimizer where
  active_tab_limits : ResourceLimits
  background_tab_limits : ResourceLimits
  system_reserve : ResourceLimits
deriving DecidableEq, Repr

/-- A Windows `HANDLE`; `0` is `NULL`. -/
abbrev HANDLE := Nat

/-- The priority classes passed to `SetPriorityClass`. -/
inductive PriorityClass where
  | IDLE_PRIORITY_CLASS
  | BELOW_NORMAL_PRIORITY_CLASS
  | NORMAL_PRIORITY_CLASS
deriving DecidableEq, Repr

/-- Base scheduling priority that Windows gives a thread of normal thread priority in a
process of the class (Windows "Scheduling Priorities" table): the order of the classes. -/
def PriorityClass.basePriority : PriorityClass → Nat
  | .IDLE_PRIORITY_CLASS => 4
  | .BELOW_NORMAL_PRIORITY_CLASS => 6
  | .NORMAL_PRIORITY_CLASS => 8

/-- `JOB_OBJECT_LIMIT_PROCESS_MEMORY` of `winnt.h`. -/
def JOB_OBJECT_LIMIT_PROCESS_MEMORY : Nat := 0x100

/-- `JOB_OBJECT_LIMIT_JOB_MEMORY` of `winnt.h`. -/
def JOB_OBJECT_LIMIT_JOB_MEMORY : Nat := 0x200

/-- The fields of `JOBOBJECT_EXTENDED_LIMIT_INFORMATION` the program sets (the rest is
zero-initialised). -/
structure JOBOBJECT_EXTENDED_LIMIT_INFORMATION where
  LimitFlags : Nat
  ProcessMemoryLimit : Nat
  JobMemoryLimit : Nat
deriving DecidableEq, Repr

/-- What the optimizer does to the outside world, and the calls of its own member
functions that the properties speak about, in program order. -/
inductive Event where
  | ApplyResourceLimits (process : HANDLE) (limits : ResourceLimits)
  | CreateJobObject
  | SetInformationJobObject (job : HANDLE) (job_limits : JOBOBJECT_EXTENDED_LIMIT_INFORMATION)
  | AssignProcessToJobObject (job : HANDLE) (process : HANDLE)
  | SetPriorityClass (process : HANDLE) (cls : PriorityClass)
  | GetProcessTimes (process : HANDLE)
  | SuspendProcess (process : HANDLE)
  | NtSuspendProcess (process : HANDLE)
deriving DecidableEq, Repr

/-- `InitializeLimits`, as a function of the object it mutates and of the two values it
reads from the operating system: `mem_info.ullTotalPhys` (bytes, `DWORDLONG`) and
`sys_info.dwNumberOfProcessors` (`DWORD`).  `system_reserve.max_threads` is not assigned
and keeps its previous content.  The console output of `LogConfiguration` is not part of
the state. -/
def InitializeLimits (self : NaturalAsymmetryOptimizer) (ullTotalPhys : Nat)
    (dwNumberOfProcessors : Nat) : NaturalAsymmetryOptimizer :=
  let total_ram_mb : Nat := ullTotalPhys / (1024 * 1024)
  let cpu_cores : Int := wrapInt32 dwNumberOfProcessors
  { active_tab_limits :=
      { max_memory_mb := Double.toSizeT (Double.mul (Double.ofSizeT total_ram_mb) EMERGENCE_RATIO)
        max_cpu_percent := 30
        max_threads := wrapInt32 (cpu_cores * 2) }
    background_tab_limits :=
      { max_memory_mb := 100
        max_cpu_percent := 5
        max_threads := 2 }
    system_reserve :=
      { max_memory_mb := Double.toSizeT (Double.mul (Double.ofSizeT total_ram_mb) SUPPORT_RATIO)
        max_cpu_percent := 50
        max_threads := self.system_reserve.max_threads } }

/-- `ApplyResourceLimits`; `job` is the handle `CreateJobObject` returned (`0` on
failure). -/
def ApplyResourceLimits (job : HANDLE) (process : HANDLE) (limits : ResourceLimits) :
    List Event :=
  [Event.ApplyResourceLimits process limits, Event.CreateJobObject] ++
  (if job ≠ 0 then
    [Event.SetInformationJobObject job
        { LimitFlags := JOB_OBJECT_LIMIT_PROCESS_MEMORY ||| JOB_OBJECT_LIMIT_JOB_MEMORY
          ProcessMemoryLimit := wrap64 (wrap64 (limits.max_memory_mb * 1024) * 1024)
          JobMemoryLimit := wrap64 (wrap64 (limits.max_memory_mb * 1024) * 1024) },
      Event.AssignProcessToJobObject job process]
  else []) ++
  (if limits.max_cpu_percent ≤ 10 then
    [Event.SetPriorityClass process PriorityClass.IDLE_PRIORITY_CLASS]
  else if limits.max_cpu_percent ≤ 30 then
    [Event.SetPriorityClass process PriorityClass.BELOW_NORMAL_PRIORITY_CLASS]
  else
    [Event.SetPriorityClass process PriorityClass.NORMAL_PRIORITY_CLASS])

/-- `ApplyTabLimits`. -/
def ApplyTabLimits (self : NaturalAsymmetryOptimizer) (job : HANDLE) (process : HANDLE)
    (is_active : Bool) : List Event :=
  if is_active then
    ApplyResourceLimits job process self.active_tab_limits
  else
    ApplyResourceLimits job process self.background_tab_limits

/-- `GetIdleTime`: the placeholder of the source. -/
def GetIdleTime (_process : HANDLE) : Nat := 0

/-- `SuspendProcess`; `pfnNtSuspendProcess` tells whether `GetProcAddress` resolved
`NtSuspendProcess` in `ntdll`. -/
def SuspendProcess (pfnNtSuspendProcess : Bool) (process : HANDLE) : List Event :=
  Event.SuspendProcess process ::
    (if pfnNtSuspendProcess then [Event.NtSuspendProcess process] else [])

/-- The loop of `ThrottleBackgroundTabs` over the vector of background processes, with the
idle-time source it consults once per process as the parameter `idle`. -/
def throttleLoop (idle : HANDLE → Nat) (pfnNtSuspendProcess : Bool) :
    List HANDLE → List Event
  | [] => []
  | process :: rest =>
    let idle_time := idle process
    Event.GetProcessTimes process ::
      ((if idle_time > 30000 then SuspendProcess pfnNtSuspendProcess process else []) ++
        throttleLoop idle pfnNtSuspendProcess rest)

/-- `ThrottleBackgroundTabs`: the loop, consulting `GetIdleTime`. -/
def ThrottleBackgroundTabs (pfnNtSuspendProcess : Bool) (background_processes : List HANDLE) :
    List Event :=
  throttleLoop GetIdleTime pfnNtSuspendProcess background_processes

/-! ## Observations on traces -/

/-- The budgets handed to `ApplyResourceLimits`, in order. -/
def appliedBudgets : List Event → List (HANDLE × ResourceLimits)
  | [] => []
  | Event.ApplyResourceLimits p l :: es => (p, l) :: appliedBudgets es
  | _ :: es => appliedBudgets es

/-- The priority classes set, in order. -/
def prioritiesSet : List Event → List (HANDLE × PriorityClass)
  | [] => []
  | Event.SetPriorityClass p c :: es => (p, c) :: prioritiesSet es
  | _ :: es => prioritiesSet es

/-- The job limits set, in order. -/
def jobLimitsSet : List Event → List JOBOBJECT_EXTENDED_LIMIT_INFORMATION
  | [] => []
  | Event.SetInformationJobObject _ i :: es => i :: jobLimitsSet es
  | _ :: es => jobLimitsSet es

/-- The processes for which `SuspendProcess` was called, in order. -/
def suspendsIssued : List Event → List HANDLE
  | [] => []
  | Event.SuspendProcess p :: es => p :: suspendsIssued es
  | _ :: es => suspendsIssued es

/-! ## Facts about the arithmetic model -/

theorem roundSig53_of_lt {N : Nat} (h : N < 2 ^ 53) : roundSig53 N = N := by
  have hs : (Nat.log2 N + 1) - 53 = 0 := by
    rcases Nat.eq_zero_or_pos N with h0 | h0
    · subst h0; simp [Nat.log2]
    · have := (Nat.log2_lt (Nat.pos_iff_ne_zero.mp h0)).mpr h
      omega
  simp [roundSig53, hs, Nat.mod_one]

/-- The rounded value lies on the grid of spacing `2 ^ s`, within half a grid step of the
argument, and the argument is below `2 ^ s * 2 ^ 53`. -/
theorem roundSig53_spec (N : Nat) :
    ∃ s q, roundSig53 N = q * 2 ^ s ∧ s = (Nat.log2 N + 1) - 53 ∧
      2 * roundSig53 N ≤ 2 * N + 2 ^ s ∧ 2 * N ≤ 2 * roundSig53 N + 2 ^ s ∧
      N < 2 ^ s * 2 ^ 53 := by
  refine ⟨(Nat.log2 N + 1) - 53, ?_⟩
  generalize hs : (Nat.log2 N + 1) - 53 = s
  have hlt : N < 2 ^ s * 2 ^ 53 := by
    have h1 : N < 2 ^ (Nat.log2 N + 1) := Nat.lt_log2_self
    have h2 : 2 ^ (Nat.log2 N + 1) ≤ 2 ^ (s + 53) :=
      Nat.pow_le_pow_right (by norm_num) (by omega)
    rw [← pow_add]
    exact lt_of_lt_of_le h1 h2
  have hP : 0 < 2 ^ s := by positivity
  have hdm : 2 ^ s * (N / 2 ^ s) + N % 2 ^ s = N := Nat.div_add_mod N (2 ^ s)
  have hmod : N % 2 ^ s < 2 ^ s := Nat.mod_lt _ hP
  have hR : roundSig53 N = (if 2 * (N % 2 ^ s) < 2 ^ s then N / 2 ^ s * 2 ^ s
      else if 2 ^ s < 2 * (N % 2 ^ s) then (N / 2 ^ s + 1) * 2 ^ s
      else if N / 2 ^ s % 2 = 0 then N / 2 ^ s * 2 ^ s
      else (N / 2 ^ s + 1) * 2 ^ s) := by
    simp only [roundSig53, hs]
  generalize hq : N / 2 ^ s = q at hdm hR
  generalize hr : N % 2 ^ s = r at hdm hR hmod
  generalize hPP : 2 ^ s = P at *
  have e1 : q * P = P * q := Nat.mul_comm _ _
  have e2 : (q + 1) * P = P * q + P := by ring
  rw [hR]
  split_ifs
  · exact ⟨q, rfl, rfl, by omega, by omega, hlt⟩
  · exact ⟨q + 1, rfl, rfl, by omega, by omega, hlt⟩
  · exact ⟨q, rfl, rfl, by omega, by omega, hlt⟩
  · exact ⟨q + 1, rfl, rfl, by omega, by omega, hlt⟩

/-- The correctly rounded product `t * 0.30`, truncated, is `⌊3 t / 10⌋` for `t < 2 ^ 44`:
the rounding error of the literal and of the product never carries the value across an
integer. -/
theorem mul_emergence_trunc {t : Nat} (ht : t < 2 ^ 44) :
    roundSig53 (t * 5404319552844595) / 2 ^ 54 = t * 3 / 10 := by
  obtain ⟨s, q, hq, hs, hup, hlo, hlt⟩ := roundSig53_spec (t * 5404319552844595)
  generalize hN : t * 5404319552844595 = N at *
  generalize hR : roundSig53 N = R at *
  have hs44 : s ≤ 44 := by
    rcases Nat.eq_zero_or_pos N with h0 | h0
    · subst h0; simp [Nat.log2] at hs; omega
    · have : Nat.log2 N < 97 := (Nat.log2_lt (Nat.pos_iff_ne_zero.mp h0)).mpr (by
        norm_num at ht ⊢; omega)
      omega
  have hP44 : 2 ^ s ≤ 2 ^ 44 := Nat.pow_le_pow_right (by norm_num) hs44
  have hdvd : 2 ^ 54 = 2 ^ (54 - s) * 2 ^ s := by
    rw [← pow_add]; congr 1; omega
  have hPpos : 0 < 2 ^ s := by positivity
  -- the rounded value is at least `a * 2 ^ 54`, or a full grid step below it
  have hgrid : ∀ a : Nat, R < a * 2 ^ 54 → R + 2 ^ s ≤ a * 2 ^ 54 := by
    intro a ha
    rw [hdvd, ← Nat.mul_assoc, hq] at ha ⊢
    have : q < a * 2 ^ (54 - s) := Nat.lt_of_mul_lt_mul_right ha
    calc q * 2 ^ s + 2 ^ s = (q + 1) * 2 ^ s := by ring
      _ ≤ a * 2 ^ (54 - s) * 2 ^ s := Nat.mul_le_mul_right _ this
  have hg := hgrid (t * 3 / 10)
  generalize 2 ^ s = P at *
  norm_num at ht hP44 hlt hg ⊢
  by_cases hlow : R < t * 3 / 10 * 18014398509481984
  · have := hg hlow
    omega
  · omega

/-- The product `t * 0.50` is exact for `t < 2 ^ 44`. -/
theorem mul_support_exact {t : Nat} (ht : t < 2 ^ 44) :
    roundSig53 (t * 4503599627370496) = t * 4503599627370496 := by
  obtain ⟨s, q, hq, hs, hup, hlo, hlt⟩ := roundSig53_spec (t * 4503599627370496)
  generalize hN : t * 4503599627370496 = N at *
  generalize hR : roundSig53 N = R at *
  have hs44 : s ≤ 44 := by
    rcases Nat.eq_zero_or_pos N with h0 | h0
    · subst h0; simp [Nat.log2] at hs; omega
    · have : Nat.log2 N < 97 := (Nat.log2_lt (Nat.pos_iff_ne_zero.mp h0)).mpr (by
        norm_num at ht ⊢; omega)
      omega
  have hdvd : (4503599627370496 : Nat) = 2 ^ (52 - s) * 2 ^ s := by
    rw [← pow_add, show 52 - s + s = 52 by omega]; norm_num
  have hPpos : 0 < 2 ^ s := by positivity
  have hNP : N = t * 2 ^ (52 - s) * 2 ^ s := by rw [← hN, Nat.mul_assoc, ← hdvd]
  generalize t * 2 ^ (52 - s) = c at hNP
  generalize 2 ^ s = P at *
  subst hNP hq
  rcases Nat.lt_trichotomy q c with h | h | h
  · have : (q + 1) * P ≤ c * P := Nat.mul_le_mul_right _ h
    have e : (q + 1) * P = q * P + P := by ring
    omega
  · rw [h]
  · have : (c + 1) * P ≤ q * P := Nat.mul_le_mul_right _ h
    have e : (c + 1) * P = c * P + P := by ring
    omega

theorem total_ram_mb_lt {B : Nat} (h : B < 2 ^ 64) : B / (1024 * 1024) < 2 ^ 44 := by
  omega

/-- The active memory budget in closed form. -/
theorem active_max_memory_mb (self : NaturalAsymmetryOptimizer) (B c : Nat) (h : B < 2 ^ 64) :
    (InitializeLimits self B c).active_tab_limits.max_memory_mb = B / (1024 * 1024) * 3 / 10 := by
  have ht := total_ram_mb_lt h
  have h53 : B / (1024 * 1024) < 2 ^ 53 := lt_trans ht (by norm_num)
  simp only [InitializeLimits, Double.toSizeT, Double.mul, Double.ofSizeT, EMERGENCE_RATIO,
    roundSig53_of_lt h53, Nat.zero_add]
  exact mul_emergence_trunc ht

/-- The system reserve in closed form. -/
theorem system_max_memory_mb (self : NaturalAsymmetryOptimizer) (B c : Nat) (h : B < 2 ^ 64) :
    (InitializeLimits self B c).system_reserve.max_memory_mb = B / (1024 * 1024) / 2 := by
  have ht := total_ram_mb_lt h
  have h53 : B / (1024 * 1024) < 2 ^ 53 := lt_trans ht (by norm_num)
  simp only [InitializeLimits, Double.toSizeT, Double.mul, Double.ofSizeT, SUPPORT_RATIO,
    roundSig53_of_lt h53, Nat.zero_add, mul_support_exact ht]
  omega

theorem floor_mul_030 (t : Nat) : ⌊(t : ℚ) * 0.30⌋₊ = t * 3 / 10 := by
  have : (t : ℚ) * 0.30 = ((t * 3 : ℕ) : ℚ) / ((10 : ℕ) : ℚ) := by
    push_cast; norm_num; ring
  rw [this, Nat.floor_div_eq_div]

theorem floor_mul_050 (t : Nat) : ⌊(t : ℚ) * 0.50⌋₊ = t / 2 := by
  have : (t : ℚ) * 0.50 = ((t : ℕ) : ℚ) / ((2 : ℕ) : ℚ) := by
    push_cast; norm_num; ring
  rw [this, Nat.floor_div_eq_div]

/-- The constant used for `0.30` is the binary64 number nearest to `3 / 10`: a 53-bit
significand, less than half a unit in the last place away. -/
theorem EMERGENCE_RATIO_nearest :
    2 ^ 52 ≤ EMERGENCE_RATIO.mant ∧ EMERGENCE_RATIO.mant < 2 ^ 53 ∧
      abs ( EMERGENCE_RATIO.toRat - 3 / 10) < 1 / 2 ^ ( EMERGENCE_RATIO.scale + 1) := by
  refine ⟨by decide, by decide, ?_⟩
  simp only [Double.toRat, EMERGENCE_RATIO]
  rw [abs_lt]
  constructor <;> norm_num

/-- The constant used for `0.20` is the binary64 number nearest to `2 / 10`. -/
theorem OPTIMIZE_RATIO_nearest :
    2 ^ 52 ≤ OPTIMIZE_RATIO.mant ∧ OPTIMIZE_RATIO.mant < 2 ^ 53 ∧
      abs ( OPTIMIZE_RATIO.toRat - 2 / 10) < 1 / 2 ^ ( OPTIMIZE_RATIO.scale + 1) := by
  refine ⟨by decide, by decide, ?_⟩
  simp only [Double.toRat, OPTIMIZE_RATIO]
  rw [abs_lt]
  constructor <;> norm_num

/-- The constant used for `0.50` is `1 / 2` itself. -/
theorem SUPPORT_RATIO_exact :
    2 ^ 52 ≤ SUPPORT_RATIO.mant ∧ SUPPORT_RATIO.mant < 2 ^ 53 ∧ SUPPORT_RATIO.toRat = 1 / 2 := by
  refine ⟨by decide, by decide, ?_⟩
  simp only [Double.toRat, SUPPORT_RATIO]
  norm_num

/-! ## The budgets computed by `InitializeLimits` -/

/-- C1: for every host memory size `ullTotalPhys` (a 64-bit byte count), with
`t = ullTotalPhys / 2^20` the total in MB, `InitializeLimits` sets the active memory budget
to `t × 0.30` and the system reserve to `t × 0.50`, the ratios taken as exact decimals and
the product truncated toward zero; when `t = 16000` the active budget is 4800 MB, the
system reserve 8000 MB and the background budget 100 MB. -/
theorem C1_InitializeLimits_memory_budgets (self : NaturalAsymmetryOptimizer)
    (ullTotalPhys dwNumberOfProcessors : Nat) (h : ullTotalPhys < 2 ^ 64) :
    (InitializeLimits self ullTotalPhys dwNumberOfProcessors).active_tab_limits.max_memory_mb
        = ⌊((ullTotalPhys / (1024 * 1024) : ℕ) : ℚ) * 0.30⌋₊ ∧
    (InitializeLimits self ullTotalPhys dwNumberOfProcessors).system_reserve.max_memory_mb
        = ⌊((ullTotalPhys / (1024 * 1024) : ℕ) : ℚ) * 0.50⌋₊ ∧
    (ullTotalPhys / (1024 * 1024) = 16000 →
      (InitializeLimits self ullTotalPhys dwNumberOfProcessors).active_tab_limits.max_memory_mb
          = 4800 ∧
      (InitializeLimits self ullTotalPhys dwNumberOfProcessors).system_reserve.max_memory_mb
          = 8000 ∧
      (InitializeLimits self ullTotalPhys dwNumberOfProcessors).background_tab_limits.max_memory_mb
          = 100) := by
  rw [floor_mul_030, floor_mul_050, active_max_memory_mb self _ _ h,
    system_max_memory_mb self _ _ h]
  refine ⟨rfl, rfl, fun h16 => ?_⟩
  rw [h16]
  exact ⟨by norm_num, by norm_num, rfl⟩

/-- C1 at a host with 16000 MB: 4800 MB active, 8000 MB reserve, 100 MB background. -/
theorem C1_InitializeLimits_memory_budgets_witness :
    (16000 * 1048576 : Nat) < 2 ^ 64 ∧
    (InitializeLimits ⟨⟨0, 0, 0⟩, ⟨0, 0, 0⟩, ⟨0, 0, 0⟩⟩ (16000 * 1048576) 8).active_tab_limits.max_memory_mb
        = 4800 ∧
    (InitializeLimits ⟨⟨0, 0, 0⟩, ⟨0, 0, 0⟩, ⟨0, 0, 0⟩⟩ (16000 * 1048576) 8).system_reserve.max_memory_mb
        = 8000 ∧
    (InitializeLimits ⟨⟨0, 0, 0⟩, ⟨0, 0, 0⟩, ⟨0, 0, 0⟩⟩ (16000 * 1048576) 8).background_tab_limits.max_memory_mb
        = 100 :=
  ⟨by norm_num,
    (C1_InitializeLimits_memory_budgets ⟨⟨0, 0, 0⟩, ⟨0, 0, 0⟩, ⟨0, 0, 0⟩⟩ (16000 * 1048576) 8
      (by norm_num)).2.2 (by norm_num)⟩

/-- C2: for every host memory size, the active budget and the system reserve computed by
`InitializeLimits` together do not exceed the total memory in MB. -/
theorem C2_active_plus_reserve_le_total (self : NaturalAsymmetryOptimizer)
    (ullTotalPhys dwNumberOfProcessors : Nat) (h : ullTotalPhys < 2 ^ 64) :
    (InitializeLimits self ullTotalPhys dwNumberOfProcessors).active_tab_limits.max_memory_mb +
      (InitializeLimits self ullTotalPhys dwNumberOfProcessors).system_reserve.max_memory_mb
      ≤ ullTotalPhys / (1024 * 1024) := by
  rw [active_max_memory_mb self _ _ h, system_max_memory_mb self _ _ h]
  omega

/-- C2 at the largest 64-bit byte count. -/
theorem C2_active_plus_reserve_le_total_witness :
    (2 ^ 64 - 1 : Nat) < 2 ^ 64 ∧
    (InitializeLimits ⟨⟨0, 0, 0⟩, ⟨0, 0, 0⟩, ⟨0, 0, 0⟩⟩ (2 ^ 64 - 1) 8).active_tab_limits.max_memory_mb +
      (InitializeLimits ⟨⟨0, 0, 0⟩, ⟨0, 0, 0⟩, ⟨0, 0, 0⟩⟩ (2 ^ 64 - 1) 8).system_reserve.max_memory_mb
      ≤ (2 ^ 64 - 1) / (1024 * 1024) :=
  ⟨by norm_num,
    C2_active_plus_reserve_le_total ⟨⟨0, 0, 0⟩, ⟨0, 0, 0⟩, ⟨0, 0, 0⟩⟩ (2 ^ 64 - 1) 8 (by norm_num)⟩

/-- C4: the per-process background budget computed by `InitializeLimits` is 100 MB, 5
percent CPU and 2 threads whatever the host memory, the core count and the previous
content of the object, hence the same for any two hosts. -/
theorem C4_background_budget_constant (self self' : NaturalAsymmetryOptimizer)
    (ullTotalPhys ullTotalPhys' dwNumberOfProcessors dwNumberOfProcessors' : Nat) :
    (InitializeLimits self ullTotalPhys dwNumberOfProcessors).background_tab_limits
        = { max_memory_mb := 100, max_cpu_percent := 5, max_threads := 2 } ∧
    (InitializeLimits self ullTotalPhys dwNumberOfProcessors).background_tab_limits
        = (InitializeLimits self' ullTotalPhys' dwNumberOfProcessors').background_tab_limits :=
  ⟨rfl, rfl⟩

/-- C6: the three ratio constants, as the binary64 values the literals denote, lie
strictly between 0 and 1 and add up to exactly 1. -/
theorem C6_ratios_sum_to_one :
    (0 < EMERGENCE_RATIO.toRat ∧ EMERGENCE_RATIO.toRat < 1) ∧
    (0 < OPTIMIZE_RATIO.toRat ∧ OPTIMIZE_RATIO.toRat < 1) ∧
    (0 < SUPPORT_RATIO.toRat ∧ SUPPORT_RATIO.toRat < 1) ∧
    EMERGENCE_RATIO.toRat + OPTIMIZE_RATIO.toRat + SUPPORT_RATIO.toRat = 1 := by
  simp only [Double.toRat, EMERGENCE_RATIO, OPTIMIZE_RATIO, SUPPORT_RATIO]
  norm_num

/-! ## Applying budgets -/

theorem appliedBudgets_ApplyResourceLimits (job process : HANDLE) (limits : ResourceLimits) :
    appliedBudgets (ApplyResourceLimits job process limits) = [(process, limits)] := by
  unfold ApplyResourceLimits
  split_ifs <;> simp [appliedBudgets]

theorem prioritiesSet_ApplyResourceLimits (job process : HANDLE) (limits : ResourceLimits) :
    prioritiesSet (ApplyResourceLimits job process limits) =
      [(process,
        if limits.max_cpu_percent ≤ 10 then PriorityClass.IDLE_PRIORITY_CLASS
        else if limits.max_cpu_percent ≤ 30 then PriorityClass.BELOW_NORMAL_PRIORITY_CLASS
        else PriorityClass.NORMAL_PRIORITY_CLASS)] := by
  unfold ApplyResourceLimits
  split_ifs <;> simp [prioritiesSet]

theorem mem_prioritiesSet (p : HANDLE) (c : PriorityClass) (es : List Event) :
    Event.SetPriorityClass p c ∈ es ↔ (p, c) ∈ prioritiesSet es := by
  induction es with
  | nil => simp [prioritiesSet]
  | cons e es ih => cases e <;> simp [prioritiesSet, ih]

theorem jobLimitsSet_ApplyResourceLimits (job process : HANDLE) (limits : ResourceLimits) :
    jobLimitsSet (ApplyResourceLimits job process limits) =
      if job ≠ 0 then
        [{ LimitFlags := JOB_OBJECT_LIMIT_PROCESS_MEMORY ||| JOB_OBJECT_LIMIT_JOB_MEMORY
           ProcessMemoryLimit := wrap64 (wrap64 (limits.max_memory_mb * 1024) * 1024)
           JobMemoryLimit := wrap64 (wrap64 (limits.max_memory_mb * 1024) * 1024) }]
      else [] := by
  unfold ApplyResourceLimits
  split_ifs <;> simp [jobLimitsSet]

/-- C3: for every object state, process handle and flag, `ApplyTabLimits` hands exactly one
budget to `ApplyResourceLimits`, the active one when `is_active` holds and the background
one otherwise; what it does is the same whatever `system_reserve` contains, and on an
initialised object the budget handed over is never equal to `system_reserve`. -/
theorem C3_ApplyTabLimits_applies_matching_budget (self : NaturalAsymmetryOptimizer)
    (reserve : ResourceLimits) (ullTotalPhys dwNumberOfProcessors : Nat)
    (job process : HANDLE) (is_active : Bool) :
    appliedBudgets (ApplyTabLimits self job process is_active)
        = [(process, if is_active then self.active_tab_limits else self.background_tab_limits)] ∧
    ApplyTabLimits { self with system_reserve := reserve } job process is_active
        = ApplyTabLimits self job process is_active ∧
    (∀ b ∈ appliedBudgets
        (ApplyTabLimits (InitializeLimits self ullTotalPhys dwNumberOfProcessors) job process
          is_active),
      b.2 ≠ (InitializeLimits self ullTotalPhys dwNumberOfProcessors).system_reserve) := by
  refine ⟨?_, ?_, ?_⟩
  · cases is_active <;> simp [ApplyTabLimits, appliedBudgets_ApplyResourceLimits]
  · cases is_active <;> rfl
  · intro b hb heq
    have hcpu := congrArg ResourceLimits.max_cpu_percent heq
    cases is_active <;>
      simp [ApplyTabLimits, appliedBudgets_ApplyResourceLimits] at hb <;>
      subst hb <;> simp [InitializeLimits] at hcpu

/-- C8: `ApplyResourceLimits` sets exactly one priority class, on the process it was given:
idle for a CPU cap of at most 10 (zero and negative caps included), below-normal for a cap
above 10 and at most 30, normal above 30.  The class is the same whether or not the job
object was created, depends on no other field of the budget, and a larger cap never gives
a class of lower base priority. -/
theorem C8_priority_class_from_cpu_cap (job job' process : HANDLE)
    (limits limits' : ResourceLimits) :
    (∃ cls, prioritiesSet (ApplyResourceLimits job process limits) = [(process, cls)] ∧
      (limits.max_cpu_percent ≤ 10 → cls = PriorityClass.IDLE_PRIORITY_CLASS) ∧
      (10 < limits.max_cpu_percent ∧ limits.max_cpu_percent ≤ 30 →
        cls = PriorityClass.BELOW_NORMAL_PRIORITY_CLASS) ∧
      (30 < limits.max_cpu_percent → cls = PriorityClass.NORMAL_PRIORITY_CLASS)) ∧
    prioritiesSet (ApplyResourceLimits job' process limits)
        = prioritiesSet (ApplyResourceLimits job process limits) ∧
    (limits.max_cpu_percent = limits'.max_cpu_percent →
      prioritiesSet (ApplyResourceLimits job process limits')
        = prioritiesSet (ApplyResourceLimits job process limits)) ∧
    (limits.max_cpu_percent ≤ limits'.max_cpu_percent →
      ∀ cls cls', prioritiesSet (ApplyResourceLimits job process limits) = [(process, cls)] →
        prioritiesSet (ApplyResourceLimits job' process limits') = [(process, cls')] →
        cls.basePriority ≤ cls'.basePriority) := by
  simp only [prioritiesSet_ApplyResourceLimits]
  refine ⟨⟨_, rfl, ?_, ?_, ?_⟩, trivial, ?_, ?_⟩
  · intro h; simp [h]
  · rintro ⟨h1, h2⟩; simp [not_le.mpr h1, h2]
  · intro h
    have h1 : ¬ limits.max_cpu_percent ≤ 10 := by omega
    have h2 : ¬ limits.max_cpu_percent ≤ 30 := by omega
    simp [h1, h2]
  · intro h; rw [h]
  · intro h cls cls' hc hc'
    simp only [List.cons.injEq, Prod.mk.injEq, true_and, and_true] at hc hc'
    subst hc hc'
    split_ifs <;> first | decide | omega

/-- C8 at the caps 5, 30 and 31, with and without a job object. -/
theorem C8_priority_class_from_cpu_cap_witness :
    prioritiesSet (ApplyResourceLimits 0 7 ⟨100, 5, 2⟩)
        = [(7, PriorityClass.IDLE_PRIORITY_CLASS)] ∧
    prioritiesSet (ApplyResourceLimits 3 7 ⟨100, 30, 2⟩)
        = [(7, PriorityClass.BELOW_NORMAL_PRIORITY_CLASS)] ∧
    prioritiesSet (ApplyResourceLimits 3 7 ⟨100, 31, 2⟩)
        = [(7, PriorityClass.NORMAL_PRIORITY_CLASS)] := by
  refine ⟨?_, ?_, ?_⟩
  · obtain ⟨cls, h, h1, _, _⟩ := (C8_priority_class_from_cpu_cap 0 0 7 ⟨100, 5, 2⟩ ⟨100, 5, 2⟩).1
    rw [h, h1 (by decide)]
  · obtain ⟨cls, h, _, h2, _⟩ := (C8_priority_class_from_cpu_cap 3 3 7 ⟨100, 30, 2⟩ ⟨100, 5, 2⟩).1
    rw [h, h2 (by decide)]
  · obtain ⟨cls, h, _, _, h3⟩ := (C8_priority_class_from_cpu_cap 3 3 7 ⟨100, 31, 2⟩ ⟨100, 5, 2⟩).1
    rw [h, h3 (by decide)]

/-- C9: for every 64-bit host memory size `B` in bytes, the active budget is
`trunc(trunc(B / 2^20) × 0.30)` MB, its conversion to bytes `× 1024 × 1024` stays below
`2 ^ 64` (the 64-bit unsigned product does not wrap) and is at most `B`; every job limit
that `ApplyResourceLimits` sets for this budget carries this value as both the process
memory limit and the job memory limit, and exactly one is set when the job object exists. -/
theorem C9_active_byte_limit_no_wrap (self : NaturalAsymmetryOptimizer)
    (ullTotalPhys dwNumberOfProcessors : Nat) (job process : HANDLE)
    (h : ullTotalPhys < 2 ^ 64) :
    (InitializeLimits self ullTotalPhys dwNumberOfProcessors).active_tab_limits.max_memory_mb
        = ⌊((ullTotalPhys / 2 ^ 20 : ℕ) : ℚ) * 0.30⌋₊ ∧
    (InitializeLimits self ullTotalPhys dwNumberOfProcessors).active_tab_limits.max_memory_mb
        * 1024 * 1024 < 2 ^ 64 ∧
    wrap64 (wrap64
        ((InitializeLimits self ullTotalPhys dwNumberOfProcessors).active_tab_limits.max_memory_mb
          * 1024) * 1024)
      = (InitializeLimits self ullTotalPhys dwNumberOfProcessors).active_tab_limits.max_memory_mb
          * 1024 * 1024 ∧
    (InitializeLimits self ullTotalPhys dwNumberOfProcessors).active_tab_limits.max_memory_mb
        * 1024 * 1024 ≤ ullTotalPhys ∧
    (∀ i ∈ jobLimitsSet (ApplyResourceLimits job process
        (InitializeLimits self ullTotalPhys dwNumberOfProcessors).active_tab_limits),
      i.ProcessMemoryLimit =
        (InitializeLimits self ullTotalPhys dwNumberOfProcessors).active_tab_limits.max_memory_mb
          * 1024 * 1024 ∧
      i.JobMemoryLimit =
        (InitializeLimits self ullTotalPhys dwNumberOfProcessors).active_tab_limits.max_memory_mb
          * 1024 * 1024) ∧
    (job ≠ 0 → (jobLimitsSet (ApplyResourceLimits job process
        (InitializeLimits self ullTotalPhys dwNumberOfProcessors).active_tab_limits)).length
      = 1) := by
  have hm := active_max_memory_mb self ullTotalPhys dwNumberOfProcessors h
  have hw : wrap64 (wrap64
      ((InitializeLimits self ullTotalPhys dwNumberOfProcessors).active_tab_limits.max_memory_mb
        * 1024) * 1024)
      = (InitializeLimits self ullTotalPhys dwNumberOfProcessors).active_tab_limits.max_memory_mb
        * 1024 * 1024 := by
    rw [hm]; unfold wrap64; omega
  refine ⟨?_, ?_, hw, ?_, ?_, ?_⟩
  · rw [floor_mul_030, hm]; norm_num
  · rw [hm]; omega
  · rw [hm]; omega
  · intro i hi
    rw [jobLimitsSet_ApplyResourceLimits] at hi
    split_ifs at hi
    · simp only [List.mem_singleton] at hi
      subst hi
      exact ⟨hw, hw⟩
    · simp at hi
  · intro hj
    rw [jobLimitsSet_ApplyResourceLimits]
    simp [hj]

/-- C9 at a host with 16000 MB: the limit is 4800 MB = 5033164800 bytes, unwrapped. -/
theorem C9_active_byte_limit_no_wrap_witness :
    (16000 * 1048576 : Nat) < 2 ^ 64 ∧
    wrap64 (wrap64
        ((InitializeLimits ⟨⟨0, 0, 0⟩, ⟨0, 0, 0⟩, ⟨0, 0, 0⟩⟩ (16000 * 1048576) 8).active_tab_limits.max_memory_mb
          * 1024) * 1024)
      = (InitializeLimits ⟨⟨0, 0, 0⟩, ⟨0, 0, 0⟩, ⟨0, 0, 0⟩⟩ (16000 * 1048576) 8).active_tab_limits.max_memory_mb
          * 1024 * 1024 :=
  ⟨by norm_num,
    (C9_active_byte_limit_no_wrap ⟨⟨0, 0, 0⟩, ⟨0, 0, 0⟩, ⟨0, 0, 0⟩⟩ (16000 * 1048576) 8 3 7
      (by norm_num)).2.2.1⟩

/-- C10: on an object initialised for any host, `ApplyTabLimits` gives an active process
the below-normal priority class and a background process the idle priority class, and
never sets the normal priority class. -/
theorem C10_ApplyTabLimits_priority_classes (self : NaturalAsymmetryOptimizer)
    (ullTotalPhys dwNumberOfProcessors : Nat) (job process : HANDLE) (is_active : Bool) :
    prioritiesSet
        (ApplyTabLimits (InitializeLimits self ullTotalPhys dwNumberOfProcessors) job process true)
      = [(process, PriorityClass.BELOW_NORMAL_PRIORITY_CLASS)] ∧
    prioritiesSet
        (ApplyTabLimits (InitializeLimits self ullTotalPhys dwNumberOfProcessors) job process false)
      = [(process, PriorityClass.IDLE_PRIORITY_CLASS)] ∧
    (∀ e ∈ ApplyTabLimits (InitializeLimits self ullTotalPhys dwNumberOfProcessors) job process
        is_active,
      ∀ p, e ≠ Event.SetPriorityClass p PriorityClass.NORMAL_PRIORITY_CLASS) := by
  refine ⟨?_, ?_, ?_⟩
  · simp [ApplyTabLimits, prioritiesSet_ApplyResourceLimits, InitializeLimits]
  · simp [ApplyTabLimits, prioritiesSet_ApplyResourceLimits, InitializeLimits]
  · intro e he p hp
    subst hp
    rw [mem_prioritiesSet] at he
    cases is_active <;>
      simp [ApplyTabLimits, prioritiesSet_ApplyResourceLimits, InitializeLimits] at he

/-! ## Throttling background tabs -/

theorem suspendsIssued_append (xs ys : List Event) :
    suspendsIssued (xs ++ ys) = suspendsIssued xs ++ suspendsIssued ys := by
  induction xs with
  | nil => rfl
  | cons e es ih => cases e <;> simp [suspendsIssued, ih]

theorem suspendsIssued_SuspendProcess (pfn : Bool) (process : HANDLE) :
    suspendsIssued (SuspendProcess pfn process) = [process] := by
  cases pfn <;> rfl

theorem suspendsIssued_throttleLoop (idle : HANDLE → Nat) (pfn : Bool) (ps : List HANDLE) :
    suspendsIssued (throttleLoop idle pfn ps) = ps.filter (fun p => decide (30000 < idle p)) := by
  induction ps with
  | nil => rfl
  | cons p ps ih =>
    simp only [throttleLoop, suspendsIssued, suspendsIssued_append, ih, List.filter_cons]
    by_cases h : 30000 < idle p
    · simp [h, suspendsIssued_SuspendProcess]
    · simp [h, suspendsIssued]

/-- C7: `GetIdleTime` returns 0 for every process, and for every list of background
processes `ThrottleBackgroundTabs` only queries the process times of each one: it calls
`SuspendProcess` for none and `NtSuspendProcess` is never reached. -/
theorem C7_stub_idle_time_never_suspends (pfn : Bool) (background_processes : List HANDLE) :
    (∀ process, GetIdleTime process = 0) ∧
    ThrottleBackgroundTabs pfn background_processes
        = background_processes.map Event.GetProcessTimes ∧
    suspendsIssued (ThrottleBackgroundTabs pfn background_processes) = [] ∧
    (∀ e ∈ ThrottleBackgroundTabs pfn background_processes,
      ∀ p, e ≠ Event.SuspendProcess p ∧ e ≠ Event.NtSuspendProcess p) := by
  have htrace : ThrottleBackgroundTabs pfn background_processes
      = background_processes.map Event.GetProcessTimes := by
    unfold ThrottleBackgroundTabs
    induction background_processes with
    | nil => rfl
    | cons p ps ih => simp [throttleLoop, GetIdleTime, ih]
  refine ⟨fun _ => rfl, htrace, ?_, ?_⟩
  · unfold ThrottleBackgroundTabs
    rw [suspendsIssued_throttleLoop]
    simp [GetIdleTime]
  · intro e he p
    rw [htrace, List.mem_map] at he
    obtain ⟨q, _, rfl⟩ := he
    exact ⟨by simp, by simp⟩

end PrismFlow
